import Mathlib

/-!
# Verification of the SVS annotation tool's versioning core

A shallow embedding of the deep-zoom pyramid geometry helpers and the
annotation version store of `magic_annotation_tool` (files
`app/annotation.py`, `app/utility.py`, `scripts/convert_to_dzi.py`),
together with theorems settling the specification's claims about them.

Numbers that are Python floats in the source are modelled as rationals
(`ℚ`); integer arithmetic (file counters, level indices) uses `ℕ`/`ℤ`
with Python's semantics made explicit.
-/

namespace MagicAnnotationTool

/-- One freehand mark: `{ type:'polyline', coordinates:[[x,y],...], color, weight }`.
The `type` field of the JSON object is called `shapeType` here. -/
structure Polyline where
  shapeType : String
  color : String
  weight : ℚ
  coordinates : List (ℚ × ℚ)
deriving DecidableEq, Repr

/-- A viewport+annotations snapshot as produced by the viewer:
`{ zoom, center:[y,x], annotations:[Polyline] }` (the fields the
comparison predicate reads; `image_name`/`timestamp` play no role in it). -/
structure Snapshot where
  zoom : ℚ
  center : ℚ × ℚ
  annotations : List Polyline
deriving DecidableEq, Repr

/-- Inner loop of `SVSAnnotationTool._compare_states` over one
position-paired annotation pair: early-returns `true` on the first
difference in type, style, coordinate count, or any paired coordinate. -/
def polyPairDiffers (a1 a2 : Polyline) : Bool :=
  if a1.shapeType ≠ a2.shapeType then true
  else if a1.color ≠ a2.color ∨ a1.weight ≠ a2.weight then true
  else if a1.coordinates.length ≠ a2.coordinates.length then true
  else (a1.coordinates.zip a2.coordinates).any fun c =>
    decide (|c.1.1 - c.2.1| > 1/1000 ∨ |c.1.2 - c.2.2| > 1/1000)

/-- Model of `SVSAnnotationTool._compare_states(state1, state2)`: returns `true`
("changed") if either state is `None`, the zoom differs by more than
0.01, a center coordinate differs by more than 0.1, the annotation lists
have different lengths, or some position-paired annotation pair differs. -/
def compare_states : Option Snapshot → Option Snapshot → Bool
  | none, _ => true
  | some _, none => true
  | some s1, some s2 =>
    if |s1.zoom - s2.zoom| > 1/100 then true
    else if |s1.center.1 - s2.center.1| > 1/10 ∨ |s1.center.2 - s2.center.2| > 1/10 then true
    else if s1.annotations.length ≠ s2.annotations.length then true
    else (s1.annotations.zip s2.annotations).any fun a => polyPairDiffers a.1 a.2

theorem polyPairDiffers_iff (a1 a2 : Polyline) :
    polyPairDiffers a1 a2 = true ↔
      (a1.shapeType ≠ a2.shapeType ∨ a1.color ≠ a2.color ∨ a1.weight ≠ a2.weight) ∨
      a1.coordinates.length ≠ a2.coordinates.length ∨
      ∃ c ∈ a1.coordinates.zip a2.coordinates,
        |c.1.1 - c.2.1| > 1/1000 ∨ |c.1.2 - c.2.2| > 1/1000 := by
  unfold polyPairDiffers
  split_ifs with h1 h2 h3
  · simp only [true_iff]
    exact Or.inl (Or.inl h1)
  · simp only [true_iff]
    rcases h2 with h2 | h2
    · exact Or.inl (Or.inr (Or.inl h2))
    · exact Or.inl (Or.inr (Or.inr h2))
  · simp only [true_iff]
    exact Or.inr (Or.inl h3)
  · push_neg at h2
    simp only [List.any_eq_true, decide_eq_true_eq]
    constructor
    · rintro ⟨c, hc, hd⟩
      exact Or.inr (Or.inr ⟨c, hc, hd⟩)
    · rintro ((h | h | h) | h | ⟨c, hc, hd⟩)
      · exact absurd h h1
      · exact absurd h2.1 h
      · exact absurd h2.2 h
      · exact absurd h h3
      · exact ⟨c, hc, hd⟩

/-- C1: The change-comparison predicate used for live-tracking autosave
classifies two snapshots as "different" iff the zoom differs by more
than 0.01, a center coordinate differs by more than 0.1, the annotation
lists have different lengths, some position-paired annotation pair
differs in type, color or weight, has differing coordinate counts, or
has a position-paired coordinate pair differing by more than 0.001 in
either axis; snapshot pairs failing every condition compare "unchanged". -/
theorem compare_states_characterization (s1 s2 : Snapshot) :
    compare_states (some s1) (some s2) = true ↔
      |s1.zoom - s2.zoom| > 1/100 ∨
      (|s1.center.1 - s2.center.1| > 1/10 ∨ |s1.center.2 - s2.center.2| > 1/10) ∨
      s1.annotations.length ≠ s2.annotations.length ∨
      (∃ p ∈ s1.annotations.zip s2.annotations,
        p.1.shapeType ≠ p.2.shapeType ∨ p.1.color ≠ p.2.color ∨ p.1.weight ≠ p.2.weight) ∨
      (∃ p ∈ s1.annotations.zip s2.annotations,
        p.1.coordinates.length ≠ p.2.coordinates.length) ∨
      ∃ p ∈ s1.annotations.zip s2.annotations,
        ∃ c ∈ p.1.coordinates.zip p.2.coordinates,
          |c.1.1 - c.2.1| > 1/1000 ∨ |c.1.2 - c.2.2| > 1/1000 := by
  show (if |s1.zoom - s2.zoom| > 1/100 then true
    else if |s1.center.1 - s2.center.1| > 1/10 ∨ |s1.center.2 - s2.center.2| > 1/10 then true
    else if s1.annotations.length ≠ s2.annotations.length then true
    else (s1.annotations.zip s2.annotations).any fun a => polyPairDiffers a.1 a.2) = true ↔ _
  split_ifs with h1 h2 h3
  · simp only [true_iff]
    exact Or.inl h1
  · simp only [true_iff]
    exact Or.inr (Or.inl h2)
  · simp only [true_iff]
    exact Or.inr (Or.inr (Or.inl h3))
  · push_neg at h2
    simp only [List.any_eq_true]
    constructor
    · rintro ⟨p, hp, hd⟩
      rcases (polyPairDiffers_iff p.1 p.2).mp hd with (h | h | h) | h | h
      · exact Or.inr (Or.inr (Or.inr (Or.inl ⟨p, hp, Or.inl h⟩)))
      · exact Or.inr (Or.inr (Or.inr (Or.inl ⟨p, hp, Or.inr (Or.inl h)⟩)))
      · exact Or.inr (Or.inr (Or.inr (Or.inl ⟨p, hp, Or.inr (Or.inr h)⟩)))
      · exact Or.inr (Or.inr (Or.inr (Or.inr (Or.inl ⟨p, hp, h⟩))))
      · exact Or.inr (Or.inr (Or.inr (Or.inr (Or.inr ⟨p, hp, h⟩))))
    · rintro (h | h | h | ⟨p, hp, hd⟩ | ⟨p, hp, hd⟩ | ⟨p, hp, hd⟩)
      · exact absurd h h1
      · rcases h with h | h
        · exact absurd h (not_lt.mpr h2.1)
        · exact absurd h (not_lt.mpr h2.2)
      · exact absurd h h3
      · exact ⟨p, hp, (polyPairDiffers_iff p.1 p.2).mpr (Or.inl hd)⟩
      · exact ⟨p, hp, (polyPairDiffers_iff p.1 p.2).mpr (Or.inr (Or.inl hd))⟩
      · exact ⟨p, hp, (polyPairDiffers_iff p.1 p.2).mpr (Or.inr (Or.inr hd))⟩

/-! ## Pyramid geometry helpers -/

/-- The `center_offset_y` bucket selection of
`calculate_viewer_metadata` in `scripts/convert_to_dzi.py`, as a
function of `aspect_ratio = width / height`. -/
def center_offset_y_of_aspect (ar : ℚ) : ℚ :=
  if ar > 3/2 then -5/4
  else if ar > 6/5 then -23/20
  else if ar > 9/10 then 0
  else if ar > 7/10 then 1/2
  else 1

/-- Computation of `calculate_viewer_metadata`'s `center_offset_y` from the slide's
native dimensions: `aspect_ratio = width / height`, then the bucket. -/
def calculate_center_offset_y (width height : ℚ) : ℚ :=
  center_offset_y_of_aspect (width / height)

/-- The `level_dimensions` list built in `SVSAnnotationTool.__init__`:
for each `level` in `0..dzi_levels-1`, with `scale = 2^(dzi_levels-1-level)`,
the pair `(max 1 (W // scale), max 1 (H // scale))` (Python floor division). -/
def level_dimensions (W H dzi_levels : ℕ) : List (ℕ × ℕ) :=
  (List.range dzi_levels).map fun level =>
    let scale := 2 ^ (dzi_levels - 1 - level)
    (max 1 (W / scale), max 1 (H / scale))

/-- Ceiling division on naturals, as the claim's "rounded up" reads. -/
def ceilDivSpec (a b : ℕ) : ℕ := (a + b - 1) / b

/-- C6: `center_offset_y` is a deterministic function of
`aspect_ratio = width/height` with exactly the buckets
`>1.5 → -1.25`, `(1.2, 1.5] → -1.15`, `(0.9, 1.2] → 0.0`,
`(0.7, 0.9] → 0.5`, `≤0.7 → 1.0`; in particular
`2.0 → -1.25`, `1.3 → -1.15`, `1.0 → 0.0`, `0.8 → 0.5`, `0.5 → 1.0`. -/
theorem center_offset_y_buckets :
    (∀ ar : ℚ,
      (center_offset_y_of_aspect ar = -5/4 ↔ 3/2 < ar) ∧
      (center_offset_y_of_aspect ar = -23/20 ↔ 6/5 < ar ∧ ar ≤ 3/2) ∧
      (center_offset_y_of_aspect ar = 0 ↔ 9/10 < ar ∧ ar ≤ 6/5) ∧
      (center_offset_y_of_aspect ar = 1/2 ↔ 7/10 < ar ∧ ar ≤ 9/10) ∧
      (center_offset_y_of_aspect ar = 1 ↔ ar ≤ 7/10)) ∧
    calculate_center_offset_y 2 1 = -5/4 ∧
    calculate_center_offset_y 13 10 = -23/20 ∧
    calculate_center_offset_y 1 1 = 0 ∧
    calculate_center_offset_y 8 10 = 1/2 ∧
    calculate_center_offset_y 1 2 = 1 := by
  refine ⟨fun ar => ?_, ?_, ?_, ?_, ?_, ?_⟩
  · unfold center_offset_y_of_aspect
    split_ifs with h1 h2 h3 h4 <;>
      refine ⟨?_, ?_, ?_, ?_, ?_⟩ <;> constructor <;> intro h <;>
      first
        | rfl
        | exact h1
        | exact ⟨h2, not_lt.mp h1⟩
        | exact ⟨h3, not_lt.mp h2⟩
        | exact ⟨h4, not_lt.mp h3⟩
        | exact not_lt.mp h4
        | (exfalso; obtain ⟨ha, hb⟩ := h; linarith)
        | (exfalso; linarith)
  all_goals norm_num [calculate_center_offset_y, center_offset_y_of_aspect]

/-- C7 counterexample: for a 1000×900 image with 9 DZI levels, level 0
has `scale = 256` and the code computes `(3, 3)` by floor division,
whereas ceiling division ("rounded up") would give `(4, 4)`: the claim's
formula disagrees with the code at this concrete input. -/
theorem level_dimensions_not_ceiling :
    (level_dimensions 1000 900 9)[0]? = some (3, 3) ∧
    ceilDivSpec 1000 (2 ^ 8) = 4 ∧ ceilDivSpec 900 (2 ^ 8) = 4 ∧
    (level_dimensions 1000 900 9)[0]? ≠
      some (ceilDivSpec 1000 (2 ^ 8), ceilDivSpec 900 (2 ^ 8)) := by
  refine ⟨?_, by decide, by decide, ?_⟩ <;> decide

/-- C7 (amended): for every image of native dimensions `(W, H)` and every
level index `level < dzi_levels`, the computed dimensions for that level
equal `(W / 2^(L-1-level), H / 2^(L-1-level))` rounded DOWN (floor
division), clamped below at 1 in each axis. -/
theorem level_dimensions_floor (W H dzi_levels level : ℕ)
    (h : level < dzi_levels) :
    (level_dimensions W H dzi_levels)[level]? =
      some (max 1 (W / 2 ^ (dzi_levels - 1 - level)),
            max 1 (H / 2 ^ (dzi_levels - 1 - level))) := by
  unfold level_dimensions
  rw [List.getElem?_map, List.getElem?_range h]
  rfl

theorem level_dimensions_floor_witness :
    1 < 9 ∧ (level_dimensions 1000 900 9)[1]? =
      some (max 1 (1000 / 2 ^ (9 - 1 - 1)), max 1 (900 / 2 ^ (9 - 1 - 1))) :=
  ⟨by decide, level_dimensions_floor 1000 900 9 1 (by decide)⟩

/-! ## Consolidated ink-status map -/

/-- One record of the consolidated `ink_status.json` map:
`{done, ink_found, last_updated}`. The timestamp is an opaque string. -/
structure StatusRecord where
  done : Bool
  ink_found : Bool
  last_updated : String
deriving DecidableEq, Repr

/-- Python dict assignment `all_statuses[image_name] = record` on the
JSON object read from `ink_status.json`, modelled on its key-value list:
replace the entry if the key is present, else append it at the end. -/
def setEntry : List (String × StatusRecord) → String → StatusRecord →
    List (String × StatusRecord)
  | [], k, v => [(k, v)]
  | (k', v') :: rest, k, v =>
    if k' = k then (k, v) :: rest else (k', v') :: setEntry rest k v

/-- Lookup of a key in the consolidated map (first matching entry). -/
def lookupStatus : List (String × StatusRecord) → String → Option StatusRecord
  | [], _ => none
  | (k', v') :: rest, k => if k' = k then some v' else lookupStatus rest k

/-- Model of `save_ink_status(image_name, done, ink_found)` in `app/utility.py`:
loads the consolidated map, replaces the entry for `image_name` with
`{done, ink_found, last_updated: now}`, and writes the map back.
`now` stands for `datetime.now().isoformat()`. -/
def save_ink_status (all_statuses : List (String × StatusRecord))
    (image_name : String) (done ink_found : Bool) (now : String) :
    List (String × StatusRecord) :=
  setEntry all_statuses image_name ⟨done, ink_found, now⟩

theorem lookupStatus_setEntry_ne (m : List (String × StatusRecord))
    (x y : String) (v : StatusRecord) (hxy : y ≠ x) :
    lookupStatus (setEntry m x v) y = lookupStatus m y := by
  induction m with
  | nil =>
    simp only [setEntry, lookupStatus]
    rw [if_neg (fun h => hxy h.symm)]
  | cons p rest ih =>
    obtain ⟨k', v'⟩ := p
    simp only [setEntry]
    by_cases hk : k' = x
    · rw [if_pos hk, lookupStatus, lookupStatus,
        if_neg (fun h => hxy h.symm), hk,
        if_neg (fun h => hxy h.symm)]
    · rw [if_neg hk, lookupStatus, lookupStatus]
      by_cases hky : k' = y
      · rw [if_pos hky, if_pos hky]
      · rw [if_neg hky, if_neg hky]
        exact ih

theorem lookupStatus_setEntry_self (m : List (String × StatusRecord))
    (x : String) (v : StatusRecord) :
    lookupStatus (setEntry m x v) x = some v := by
  induction m with
  | nil => simp [setEntry, lookupStatus]
  | cons p rest ih =>
    obtain ⟨k', v'⟩ := p
    simp only [setEntry]
    by_cases hk : k' = x
    · rw [if_pos hk, lookupStatus, if_pos rfl]
    · rw [if_neg hk, lookupStatus, if_neg hk]
      exact ih

/-- C10: `save_ink_status` is frame-preserving: the entry of every image
name other than the saved one is unchanged, and only the saved image's
entry is replaced (by the fresh `{done, ink_found, last_updated}`). -/
theorem save_ink_status_frame (m : List (String × StatusRecord))
    (x y : String) (d i : Bool) (t : String) (hxy : y ≠ x) :
    lookupStatus (save_ink_status m x d i t) y = lookupStatus m y ∧
    lookupStatus (save_ink_status m x d i t) x = some ⟨d, i, t⟩ :=
  ⟨lookupStatus_setEntry_ne m x y ⟨d, i, t⟩ hxy,
   lookupStatus_setEntry_self m x ⟨d, i, t⟩⟩

theorem save_ink_status_frame_witness :
    "imgB" ≠ "imgA" ∧
    (lookupStatus (save_ink_status [("imgB", ⟨false, true, "t0"⟩)]
        "imgA" true true "t1") "imgB" =
      lookupStatus [("imgB", ⟨false, true, "t0"⟩)] "imgB" ∧
    lookupStatus (save_ink_status [("imgB", ⟨false, true, "t0"⟩)]
        "imgA" true true "t1") "imgA" = some ⟨true, true, "t1"⟩) :=
  ⟨by decide, save_ink_status_frame [("imgB", ⟨false, true, "t0"⟩)]
    "imgA" "imgB" true true "t1" (by decide)⟩

/-! ## Snapshot files and key-sorted directory listings

A snapshot directory is modelled as a list of `(fileNumber, content)`
pairs; a file is either a parseable snapshot or malformed JSON.
`files_with_nums.sort(key=lambda x: x[0])` from the Python utilities is
modelled by an insertion sort on the numeric key. -/

/-- The on-disk content of one numbered `.json` snapshot file. -/
inductive FileContent where
  | valid (s : Snapshot)
  | malformed
deriving DecidableEq, Repr

/-- Insert a pair into a key-sorted list, keeping keys ascending. -/
def insertByKey {α : Type} (p : ℕ × α) : List (ℕ × α) → List (ℕ × α)
  | [] => [p]
  | q :: rest => if p.1 ≤ q.1 then p :: q :: rest else q :: insertByKey p rest

/-- Sort a list of numbered files by file number ascending
(`files_with_nums.sort(key=lambda x: x[0])`). -/
def sortByKey {α : Type} : List (ℕ × α) → List (ℕ × α)
  | [] => []
  | p :: rest => insertByKey p (sortByKey rest)

/-- Keys are pairwise ascending along the list. -/
def keySorted {α : Type} (l : List (ℕ × α)) : Prop :=
  List.Chain' (fun p q => p.1 ≤ q.1) l

/-- Largest key of a numbered-file list (0 for the empty list). -/
def keyMax {α : Type} (l : List (ℕ × α)) : ℕ :=
  (l.map Prod.fst).foldr max 0

theorem insertByKey_cons {α : Type} (p q : ℕ × α) (rest : List (ℕ × α)) :
    insertByKey p (q :: rest) =
      if p.1 ≤ q.1 then p :: q :: rest else q :: insertByKey p rest := rfl

theorem insertByKey_ne_nil {α : Type} (p : ℕ × α) (l : List (ℕ × α)) :
    insertByKey p l ≠ [] := by
  cases l with
  | nil => simp [insertByKey]
  | cons q rest =>
    unfold insertByKey
    split_ifs <;> simp

theorem length_insertByKey {α : Type} (p : ℕ × α) (l : List (ℕ × α)) :
    (insertByKey p l).length = l.length + 1 := by
  induction l with
  | nil => rfl
  | cons q rest ih =>
    unfold insertByKey
    split_ifs <;> simp [ih]

theorem length_sortByKey {α : Type} (l : List (ℕ × α)) :
    (sortByKey l).length = l.length := by
  induction l with
  | nil => rfl
  | cons p rest ih => simp [sortByKey, length_insertByKey, ih]

theorem keySorted_insertByKey {α : Type} (p : ℕ × α) {l : List (ℕ × α)}
    (h : keySorted l) : keySorted (insertByKey p l) := by
  induction l with
  | nil => simp [insertByKey, keySorted]
  | cons q rest ih =>
    unfold insertByKey
    rw [keySorted, List.chain'_cons'] at h
    split_ifs with hle
    · rw [keySorted, List.chain'_cons]
      exact ⟨hle, List.chain'_cons'.mpr h⟩
    · rw [keySorted, List.chain'_cons']
      refine ⟨?_, ih h.2⟩
      intro y hy
      cases rest with
      | nil =>
        simp [insertByKey] at hy
        subst hy
        omega
      | cons r rest' =>
        unfold insertByKey at hy
        split_ifs at hy with hle'
        · simp at hy
          subst hy
          omega
        · simp at hy
          subst hy
          exact h.1 r rfl

theorem keySorted_sortByKey {α : Type} (l : List (ℕ × α)) :
    keySorted (sortByKey l) := by
  induction l with
  | nil => simp [sortByKey, keySorted]
  | cons p rest ih => exact keySorted_insertByKey p ih

theorem sortByKey_eq_of_sorted {α : Type} {l : List (ℕ × α)}
    (h : keySorted l) : sortByKey l = l := by
  induction l with
  | nil => rfl
  | cons p rest ih =>
    rw [keySorted, List.chain'_cons'] at h
    rw [sortByKey, ih h.2]
    cases rest with
    | nil => rfl
    | cons q rest' =>
      unfold insertByKey
      rw [if_pos (h.1 q rfl)]

theorem keySorted_head_le_getLast {α : Type} {x q : ℕ × α}
    {l : List (ℕ × α)} (h : keySorted (x :: l))
    (hq : (x :: l).getLast? = some q) : x.1 ≤ q.1 := by
  induction l generalizing x with
  | nil =>
    simp [List.getLast?] at hq
    subst hq
    exact le_refl _
  | cons y rest ih =>
    rw [List.getLast?_cons_cons] at hq
    rw [keySorted, List.chain'_cons] at h
    exact le_trans h.1 (ih h.2 hq)

theorem getLast?_insertByKey {α : Type} (p : ℕ × α) {q : ℕ × α}
    {m : List (ℕ × α)} (hm : keySorted m) (hq : m.getLast? = some q) :
    ∃ r, (insertByKey p m).getLast? = some r ∧ r.1 = max p.1 q.1 := by
  induction m generalizing q with
  | nil => simp at hq
  | cons x rest ih =>
    rw [insertByKey_cons]
    split_ifs with hle
    · refine ⟨q, ?_, ?_⟩
      · rw [List.getLast?_cons_cons]
        exact hq
      · have hxq : x.1 ≤ q.1 := keySorted_head_le_getLast hm hq
        omega
    · cases rest with
      | nil =>
        simp [List.getLast?] at hq
        subst hq
        refine ⟨p, ?_, ?_⟩
        · simp [insertByKey, List.getLast?]
        · omega
      | cons y rest' =>
        rw [List.getLast?_cons_cons] at hq
        rw [keySorted, List.chain'_cons] at hm
        obtain ⟨r, hr, hrk⟩ := ih hm.2 hq
        refine ⟨r, ?_, hrk⟩
        have hne : insertByKey p (y :: rest') ≠ [] := insertByKey_ne_nil p _
        cases hcase : insertByKey p (y :: rest') with
        | nil => exact absurd hcase hne
        | cons z zs =>
          rw [hcase] at hr
          rw [List.getLast?_cons_cons]
          exact hr

theorem sortByKey_getLast_keyMax {α : Type} {l : List (ℕ × α)}
    (h : l ≠ []) :
    ∃ q, (sortByKey l).getLast? = some q ∧ q.1 = keyMax l := by
  induction l with
  | nil => exact absurd rfl h
  | cons p rest ih =>
    cases rest with
    | nil =>
      refine ⟨p, by simp [sortByKey, insertByKey, List.getLast?], ?_⟩
      simp [keyMax]
    | cons x rest' =>
      obtain ⟨q, hq, hqk⟩ := ih (by simp)
      obtain ⟨r, hr, hrk⟩ :=
        getLast?_insertByKey p (keySorted_sortByKey (x :: rest')) hq
      refine ⟨r, hr, ?_⟩
      rw [hrk, hqk]
      simp [keyMax]

theorem keySorted_range'_map {α : Type} (g : ℕ → α) (a n : ℕ) :
    keySorted ((List.range' a n).map fun i => (i, g i)) := by
  induction n generalizing a with
  | zero => simp [keySorted]
  | succ m ih =>
    rw [List.range'_succ]
    cases m with
    | zero => simp [keySorted]
    | succ m' =>
      rw [List.range'_succ, List.map_cons, List.map_cons,
        keySorted, List.chain'_cons]
      constructor
      · omega
      · have := ih (a + 1)
        rw [List.range'_succ, List.map_cons] at this
        exact this

/-! ## Live-tracking eviction -/

/-- Model of `cleanup_old_live_tracking(live_dir, max_files)` in
`app/utility.py`: if the directory holds more than `max_files` snapshot
files, sort the numbered files ascending and delete the lowest-numbered
ones until `max_files` remain; otherwise do nothing. The surviving
directory is represented by the sorted remainder (directories are
unordered; every consumer re-sorts). -/
def cleanup_old_live_tracking (files : List (ℕ × FileContent))
    (max_files : ℕ) : List (ℕ × FileContent) :=
  if files.length ≤ max_files then files
  else
    let sorted := sortByKey files
    sorted.drop (sorted.length - max_files)

theorem cleanup_length_le (files : List (ℕ × FileContent)) (max_files : ℕ) :
    (cleanup_old_live_tracking files max_files).length ≤ max_files := by
  unfold cleanup_old_live_tracking
  split_ifs with h
  · exact h
  · rw [List.length_drop, length_sortByKey]
    omega

/-! ## The annotation version store (`SVSAnnotationTool`) -/

/-- The mutable per-session state of `SVSAnnotationTool`, together with
the two on-disk snapshot directories it owns. The viewer round-trip is
modelled by the two trigger counters (`save_annotation_trigger` asks the
UI for the current state, `load_annotation_trigger` pushes a state to
the UI); timestamps (`time.time()`) are rationals. -/
structure ToolState where
  image_name : String
  live_files : List (ℕ × FileContent)
  saved_files : List (ℕ × FileContent)
  live_tracking_index : ℕ
  current_live_index : ℤ
  last_saved_state : Option Snapshot
  initial_state_saved : Bool
  current_saved_index : ℤ
  manual_save_pending : Bool
  is_loading_state : Bool
  navigation_timestamp : ℚ
  done_status : Bool
  ink_found_status : Bool
  save_annotation_trigger : ℕ
  load_annotation_trigger : ℕ
deriving DecidableEq, Repr

/-- Lookup of a numbered file in a snapshot directory
(`os.path.exists` + open). -/
def lookupFile : List (ℕ × FileContent) → ℕ → Option FileContent
  | [], _ => none
  | (k, v) :: rest, n => if k = n then some v else lookupFile rest n

/-- Model of `load_annotation_json(filepath)` in `app/utility.py`: returns `None`
when the file is absent, otherwise `json.load`s it — a parse failure on
malformed content raises (`json.JSONDecodeError`), modelled as
`Except.error`. -/
def load_annotation_json : Option FileContent → Except Unit (Option Snapshot)
  | none => Except.ok none
  | some FileContent.malformed => Except.error ()
  | some (FileContent.valid j) => Except.ok (some j)

/-- Model of `SVSAnnotationTool._check_and_save_if_changed`, the periodic
autosave check: a no-op while `_is_loading_state` is set, a no-op for 2
seconds after `_navigation_timestamp`, and otherwise fires
`save_annotation_trigger` to request the current state from the UI. -/
def check_and_save_if_changed (s : ToolState) (now : ℚ) : ToolState :=
  if s.is_loading_state then s
  else if now - s.navigation_timestamp < 2 then s
  else { s with save_annotation_trigger := s.save_annotation_trigger + 1 }

/-- Model of `SVSAnnotationTool._save_live_tracking_state`: write the snapshot
under the next live-tracking number, advance `current_live_index` and
the counter, then run eviction (`max_files=1000` at the call site in
`annotation.py`; the cap is a parameter here). -/
def save_live_tracking_state (s : ToolState) (j : Snapshot)
    (max_files : ℕ) : ToolState :=
  { s with
    live_files := cleanup_old_live_tracking
      (s.live_files ++ [(s.live_tracking_index, FileContent.valid j)])
      max_files,
    current_live_index := (s.live_tracking_index : ℤ),
    live_tracking_index := s.live_tracking_index + 1 }

/-- Iterated live-tracking appends: `n` appends (snapshot `snaps k` on the
`k`-th firing), as driven by the autosave change detection. -/
def write_live_sequence (s : ToolState) (snaps : ℕ → Snapshot)
    (max_files : ℕ) : ℕ → ToolState
  | 0 => s
  | n + 1 =>
    save_live_tracking_state (write_live_sequence s snaps max_files n)
      (snaps n) max_files

/-- The sorted numeric file list built at the top of
`_undo_annotation`/`_redo_annotation` (`glob` + parse + `sort`). -/
def fileNumbers (files : List (ℕ × FileContent)) : List ℕ :=
  (sortByKey files).map Prod.fst

/-- Model of `SVSAnnotationTool._undo_annotation`: step back one file in the
sorted live-tracking list. Sets `_is_loading_state` and the navigation
timestamp before loading; a parse error on the target file is caught by
the method's handler, which clears `_is_loading_state`. -/
def undo_annotation_step (s : ToolState) (now : ℚ) : ToolState :=
  let nums := fileNumbers s.live_files
  if nums.isEmpty then s
  else
    let cur : ℤ :=
      if s.current_live_index = -1 ∨
          s.current_live_index ∉ nums.map (fun n => (n : ℤ)) then
        ((nums.getLastD 0 : ℕ) : ℤ)
      else s.current_live_index
    let s1 := { s with current_live_index := cur }
    match nums.findIdx? (fun n => decide ((n : ℤ) = cur)) with
    | none => s1
    | some pos =>
      if pos > 0 then
        let s2 := { s1 with is_loading_state := true,
                            navigation_timestamp := now }
        let prev := nums.getD (pos - 1) 0
        match load_annotation_json (lookupFile s2.live_files prev) with
        | Except.error _ => { s2 with is_loading_state := false }
        | Except.ok none => s2
        | Except.ok (some j) =>
          { s2 with
            load_annotation_trigger := s2.load_annotation_trigger + 1,
            current_live_index := (prev : ℤ),
            last_saved_state := some j,
            current_saved_index := -1 }
      else s1

/-- Model of `SVSAnnotationTool._redo_annotation`: step forward one file in the
sorted live-tracking list (no fix-up of a stale current index: a missing
index is a logged no-op, as the `ValueError` path). -/
def redo_annotation_step (s : ToolState) (now : ℚ) : ToolState :=
  let nums := fileNumbers s.live_files
  if nums.isEmpty then s
  else
    match nums.findIdx? (fun n => decide ((n : ℤ) = s.current_live_index)) with
    | none => s
    | some pos =>
      if pos < nums.length - 1 then
        let s2 := { s with is_loading_state := true,
                           navigation_timestamp := now }
        let next := nums.getD (pos + 1) 0
        match load_annotation_json (lookupFile s2.live_files next) with
        | Except.error _ => { s2 with is_loading_state := false }
        | Except.ok none => s2
        | Except.ok (some j) =>
          { s2 with
            load_annotation_trigger := s2.load_annotation_trigger + 1,
            current_live_index := (next : ℤ),
            last_saved_state := some j,
            current_saved_index := -1 }
      else s

/-- Model of `SVSAnnotationTool._mark_done`: toggle `done`; both branches of the
toggle force `ink_found = False`. -/
def mark_done (s : ToolState) : ToolState :=
  let done' := !s.done_status
  if done' then { s with done_status := done', ink_found_status := false }
  else { s with done_status := done', ink_found_status := false }

/-- Model of `get_saved_views_list(saved_dir)`: the saved-view files sorted by
number ascending. -/
def get_saved_views_list (saved_files : List (ℕ × FileContent)) :
    List (ℕ × FileContent) :=
  sortByKey saved_files

/-- Model of `SVSAnnotationTool._save_current_view`: set the manual-save flag,
force `done=True, ink_found=True`, persist the status (timestamp `t`),
and fire the snapshot request; returns the new session state and the
updated consolidated status map. -/
def save_current_view (s : ToolState)
    (all_statuses : List (String × StatusRecord)) (t : String) :
    ToolState × List (String × StatusRecord) :=
  let s' := { s with manual_save_pending := true,
                     done_status := true,
                     ink_found_status := true,
                     save_annotation_trigger := s.save_annotation_trigger + 1 }
  (s', save_ink_status all_statuses s.image_name true true t)

/-- Model of `SVSAnnotationTool._complete_manual_save`: when the requested
snapshot arrives, write it to the saved-views directory under
`max(existing numbers) + 1` (0 when none) and clear the flag. -/
def complete_manual_save (s : ToolState) (j : Snapshot) : ToolState :=
  let saved_views := get_saved_views_list s.saved_files
  let next_num := match saved_views.getLast? with
    | some q => q.1 + 1
    | none => 0
  { s with
    saved_files := s.saved_files ++ [(next_num, FileContent.valid j)],
    manual_save_pending := false }

/-- A fresh session on an empty annotation directory (as `__init__`
computes it: next live number 0, `current_live_index = -1`, no flags). -/
def emptyToolState : ToolState :=
  { image_name := "img"
    live_files := []
    saved_files := []
    live_tracking_index := 0
    current_live_index := -1
    last_saved_state := none
    initial_state_saved := false
    current_saved_index := -1
    manual_save_pending := false
    is_loading_state := false
    navigation_timestamp := 0
    done_status := false
    ink_found_status := false
    save_annotation_trigger := 0
    load_annotation_trigger := 0 }

/-- A concrete snapshot used by the closed witness statements. -/
def demoSnapshot : Snapshot :=
  { zoom := 0, center := (0, 0), annotations := [] }

/-- C2: whenever the loading flag is set, or less than 2 seconds have
elapsed since the recorded navigation timestamp, a firing of the
periodic autosave check leaves the whole session state — including both
snapshot directories and the trigger counters — unchanged: it writes no
live-tracking file and changes no version-store state. -/
theorem check_and_save_noop (s : ToolState) (now : ℚ)
    (h : s.is_loading_state = true ∨ now - s.navigation_timestamp < 2) :
    check_and_save_if_changed s now = s := by
  unfold check_and_save_if_changed
  rcases h with h | h
  · rw [if_pos h]
  · by_cases hl : s.is_loading_state
    · rw [if_pos hl]
    · rw [if_neg hl, if_pos h]

theorem check_and_save_noop_witness :
    (({ emptyToolState with is_loading_state := true } :
        ToolState).is_loading_state = true ∨
      (0 : ℚ) - ({ emptyToolState with is_loading_state := true } :
        ToolState).navigation_timestamp < 2) ∧
    check_and_save_if_changed
        { emptyToolState with is_loading_state := true } 0 =
      { emptyToolState with is_loading_state := true } :=
  ⟨Or.inl rfl,
   check_and_save_noop { emptyToolState with is_loading_state := true } 0
     (Or.inl rfl)⟩

/-- C8: `markDone` toggles the done flag and in both directions forces
`ink_found = false`; two successive invocations restore the original
done flag, so from a fresh record (`done=false, ink_found=false`) they
end with `done=false, ink_found=false`. -/
theorem mark_done_spec (s : ToolState) :
    (mark_done s).done_status = !s.done_status ∧
    (mark_done s).ink_found_status = false ∧
    (mark_done (mark_done s)).done_status = s.done_status ∧
    (mark_done (mark_done s)).ink_found_status = false ∧
    (mark_done (mark_done
        { s with done_status := false,
                 ink_found_status := false })).done_status = false ∧
    (mark_done (mark_done
        { s with done_status := false,
                 ink_found_status := false })).ink_found_status = false := by
  refine ⟨?_, ?_, ?_, ?_, ?_, ?_⟩ <;>
    simp [mark_done, Bool.not_not]

/-- The session state of claim C3: a live-tracking sequence of three
snapshot files numbered 0, 1, 2 with the current position at index 2. -/
def threeSnapState (base : ToolState) (S0 S1 S2 : Snapshot) : ToolState :=
  { base with
    live_files := [(0, FileContent.valid S0), (1, FileContent.valid S1),
      (2, FileContent.valid S2)],
    current_live_index := 2 }

/-- C3: from a live-tracking sequence `[S0, S1, S2]` with the current
position at index 2, one undo followed by one redo pushes S1 then S2 to
the viewer (two load-trigger firings), leaves the current position back
at index 2, creates no new live-tracking files (and touches no saved
view), and leaves the last-saved-state reference equal to S2. -/
theorem undo_redo_round_trip (base : ToolState) (S0 S1 S2 : Snapshot)
    (t1 t2 : ℚ) :
    (undo_annotation_step (threeSnapState base S0 S1 S2) t1).last_saved_state
      = some S1 ∧
    (undo_annotation_step (threeSnapState base S0 S1 S2) t1).current_live_index
      = 1 ∧
    (undo_annotation_step (threeSnapState base S0 S1 S2) t1).load_annotation_trigger
      = base.load_annotation_trigger + 1 ∧
    (redo_annotation_step
        (undo_annotation_step (threeSnapState base S0 S1 S2) t1)
        t2).last_saved_state = some S2 ∧
    (redo_annotation_step
        (undo_annotation_step (threeSnapState base S0 S1 S2) t1)
        t2).current_live_index = 2 ∧
    (redo_annotation_step
        (undo_annotation_step (threeSnapState base S0 S1 S2) t1)
        t2).load_annotation_trigger = base.load_annotation_trigger + 2 ∧
    (redo_annotation_step
        (undo_annotation_step (threeSnapState base S0 S1 S2) t1)
        t2).live_files = (threeSnapState base S0 S1 S2).live_files ∧
    (redo_annotation_step
        (undo_annotation_step (threeSnapState base S0 S1 S2) t1)
        t2).saved_files = base.saved_files := by
  have hu : undo_annotation_step (threeSnapState base S0 S1 S2) t1 =
      { base with
        live_files := [(0, FileContent.valid S0), (1, FileContent.valid S1),
          (2, FileContent.valid S2)],
        current_live_index := 1,
        last_saved_state := some S1,
        current_saved_index := -1,
        is_loading_state := true,
        navigation_timestamp := t1,
        load_annotation_trigger := base.load_annotation_trigger + 1 } := rfl
  rw [hu]
  have hr : redo_annotation_step
      ({ base with
        live_files := [(0, FileContent.valid S0), (1, FileContent.valid S1),
          (2, FileContent.valid S2)],
        current_live_index := 1,
        last_saved_state := some S1,
        current_saved_index := -1,
        is_loading_state := true,
        navigation_timestamp := t1,
        load_annotation_trigger := base.load_annotation_trigger + 1 } :
        ToolState) t2 =
      { base with
        live_files := [(0, FileContent.valid S0), (1, FileContent.valid S1),
          (2, FileContent.valid S2)],
        current_live_index := 2,
        last_saved_state := some S2,
        current_saved_index := -1,
        is_loading_state := true,
        navigation_timestamp := t2,
        load_annotation_trigger := base.load_annotation_trigger + 1 + 1 } := rfl
  rw [hr]
  exact ⟨rfl, rfl, rfl, rfl, rfl, rfl, rfl, rfl⟩

/-- C9 counterexample: the snapshot read `load_annotation_json` does NOT
treat a malformed file as absent — on unparseable content it raises
(`json.JSONDecodeError` out of `json.load`), which differs from the
absent-file result `None`. -/
theorem load_annotation_json_raises_on_malformed :
    load_annotation_json (some FileContent.malformed) = Except.error () ∧
    load_annotation_json none = Except.ok none ∧
    load_annotation_json (some FileContent.malformed) ≠
      load_annotation_json none :=
  ⟨rfl, rfl, fun h => Except.noConfusion h⟩

/-- The session state of the C9 scenario: the undo target (file 0) is
malformed and the current position is file 1. -/
def malformedPrevState (base : ToolState) (S1 : Snapshot) : ToolState :=
  { base with
    live_files := [(0, FileContent.malformed), (1, FileContent.valid S1)],
    current_live_index := 1 }

/-- C9 (amended): a malformed snapshot raises a parse error out of the
read operation itself; the navigation caller's catch-all handler then
aborts the operation cleanly — the loading flag is cleared, the
navigation timestamp keeps its new value, and nothing else (no file, no
snapshot state, no indices) changes — so the error never escapes the
caller. -/
theorem undo_malformed_aborts (base : ToolState) (S1 : Snapshot) (t : ℚ) :
    load_annotation_json
        (lookupFile (malformedPrevState base S1).live_files 0)
      = Except.error () ∧
    undo_annotation_step (malformedPrevState base S1) t =
      { malformedPrevState base S1 with
        is_loading_state := false, navigation_timestamp := t } :=
  ⟨rfl, rfl⟩

theorem write_live_sequence_invariant (s0 : ToolState)
    (snaps : ℕ → Snapshot) (m : ℕ) (h1 : s0.live_files = [])
    (h2 : s0.live_tracking_index = 0) (k : ℕ) :
    (write_live_sequence s0 snaps m k).live_files
      = (List.range' (k - min k m) (min k m)).map
          (fun i => (i, FileContent.valid (snaps i))) ∧
    (write_live_sequence s0 snaps m k).live_tracking_index = k ∧
    (write_live_sequence s0 snaps m k).saved_files = s0.saved_files := by
  induction k with
  | zero =>
    refine ⟨?_, h2, rfl⟩
    simp [write_live_sequence, h1]
  | succ k ih =>
    obtain ⟨ihf, ihn, ihs⟩ := ih
    refine ⟨?_, ?_, ?_⟩
    · show (save_live_tracking_state (write_live_sequence s0 snaps m k)
        (snaps k) m).live_files = _
      rw [save_live_tracking_state]
      simp only [ihf, ihn]
      have happend :
          (List.range' (k - min k m) (min k m)).map
              (fun i => (i, FileContent.valid (snaps i)))
            ++ [(k, FileContent.valid (snaps k))]
          = (List.range' (k - min k m) (min k m + 1)).map
              (fun i => (i, FileContent.valid (snaps i))) := by
        rw [List.range'_concat, List.map_append]
        have : k - min k m + 1 * min k m = k := by omega
        rw [this]
        rfl
      rw [happend]
      by_cases hkm : k < m
      · rw [cleanup_old_live_tracking, if_pos]
        · have ha : k - min k m = 0 := by omega
          have hb : k + 1 - min (k + 1) m = 0 := by omega
          have hc : min k m + 1 = min (k + 1) m := by omega
          rw [ha, hb, hc]
        · rw [List.length_map, List.length_range']
          omega
      · rw [cleanup_old_live_tracking, if_neg]
        · have hsorted := sortByKey_eq_of_sorted
            (keySorted_range'_map (fun i => FileContent.valid (snaps i))
              (k - min k m) (min k m + 1))
          simp only [hsorted]
          rw [List.length_map, List.length_range']
          have hdrop : min k m + 1 - m = 1 := by omega
          rw [hdrop, List.range'_succ, List.map_cons, List.drop_succ_cons,
            List.drop_zero]
          have ha : k - min k m + 1 = k + 1 - min (k + 1) m := by omega
          have hb : min k m = min (k + 1) m := by omega
          rw [ha, hb]
        · rw [List.length_map, List.length_range']
          omega
    · show (save_live_tracking_state (write_live_sequence s0 snaps m k)
        (snaps k) m).live_tracking_index = k + 1
      rw [save_live_tracking_state]
      simp [ihn]
    · exact ihs

/-- C4: after every live-tracking append (including its eviction step)
at most `max_files` live-tracking files remain and no saved-view file is
touched; writing `max_files + 5` snapshots into an initially empty
sequence leaves exactly the `max_files` files numbered
`5 .. max_files+4` — precisely the 5 lowest-numbered files evicted. -/
theorem eviction_cap (m : ℕ) (snaps : ℕ → Snapshot) (s0 : ToolState)
    (h1 : s0.live_files = []) (h2 : s0.live_tracking_index = 0) :
    (∀ (s : ToolState) (j : Snapshot),
      (save_live_tracking_state s j m).live_files.length ≤ m ∧
      (save_live_tracking_state s j m).saved_files = s.saved_files) ∧
    (write_live_sequence s0 snaps m (m + 5)).live_files
      = (List.range' 5 m).map (fun i => (i, FileContent.valid (snaps i))) ∧
    (write_live_sequence s0 snaps m (m + 5)).live_files.length = m ∧
    (write_live_sequence s0 snaps m (m + 5)).saved_files
      = s0.saved_files := by
  obtain ⟨hf, _, hs⟩ := write_live_sequence_invariant s0 snaps m h1 h2 (m + 5)
  have hmin : min (m + 5) m = m := by omega
  have ha : m + 5 - min (m + 5) m = 5 := by omega
  rw [hmin] at ha
  refine ⟨fun s j => ⟨cleanup_length_le _ _, rfl⟩, ?_, ?_, hs⟩
  · rw [hf, hmin, ha]
  · rw [hf, hmin, ha, List.length_map, List.length_range']

theorem eviction_cap_witness :
    emptyToolState.live_files = [] ∧
    emptyToolState.live_tracking_index = 0 ∧
    (write_live_sequence emptyToolState (fun _ => demoSnapshot) 2
        (2 + 5)).live_files
      = (List.range' 5 2).map
          (fun i => (i, FileContent.valid demoSnapshot)) :=
  ⟨rfl, rfl,
   (eviction_cap 2 (fun _ => demoSnapshot) emptyToolState rfl rfl).2.1⟩

/-- C5: `saveCurrentView` forces the image's status to
`done=true, ink_found=true` (in the session and in the consolidated
map), and — once the requested snapshot arrives — the manual-save
completion appends exactly one new file to the saved-views sequence, at
number `max(existing numbers) + 1`, or at 0 when the sequence is empty. -/
theorem save_current_view_spec (s : ToolState)
    (m : List (String × StatusRecord)) (t : String) (j : Snapshot) :
    (save_current_view s m t).1.done_status = true ∧
    (save_current_view s m t).1.ink_found_status = true ∧
    lookupStatus (save_current_view s m t).2 s.image_name
      = some ⟨true, true, t⟩ ∧
    (∀ s' : ToolState,
      (complete_manual_save s' j).saved_files.length
        = s'.saved_files.length + 1 ∧
      (s'.saved_files = [] →
        (complete_manual_save s' j).saved_files
          = [(0, FileContent.valid j)]) ∧
      (s'.saved_files ≠ [] →
        (complete_manual_save s' j).saved_files
          = s'.saved_files
            ++ [(keyMax s'.saved_files + 1, FileContent.valid j)])) := by
  refine ⟨rfl, rfl, ?_, fun s' => ⟨?_, ?_, ?_⟩⟩
  · exact lookupStatus_setEntry_self m s.image_name ⟨true, true, t⟩
  · simp [complete_manual_save]
  · intro h
    simp [complete_manual_save, get_saved_views_list, h, sortByKey]
  · intro h
    obtain ⟨q, hq, hk⟩ := sortByKey_getLast_keyMax h
    simp [complete_manual_save, get_saved_views_list, hq, hk]

theorem save_current_view_spec_witness :
    (({ emptyToolState with
        saved_files := [(3, FileContent.valid demoSnapshot)] } :
          ToolState).saved_files ≠ []) ∧
    (complete_manual_save
        { emptyToolState with
          saved_files := [(3, FileContent.valid demoSnapshot)] }
        demoSnapshot).saved_files
      = [(3, FileContent.valid demoSnapshot)]
        ++ [(keyMax [(3, FileContent.valid demoSnapshot)] + 1,
             FileContent.valid demoSnapshot)] :=
  ⟨fun h => List.noConfusion h,
   ((save_current_view_spec emptyToolState [] "t" demoSnapshot).2.2.2
       { emptyToolState with
         saved_files := [(3, FileContent.valid demoSnapshot)] }).2.2
     (fun h => List.noConfusion h)⟩

end MagicAnnotationTool
